import Mathlib

/-!
Verification of the arc-lang runtime interpreter
(`crates/runtime/src/interpreter.rs`, AST from `crates/frontend/src/ast`).

The interpreter is embedded shallowly: the Rust visitor methods become one
fuel-indexed evaluation function over an explicit request type (one request
constructor per visitor method / internal loop), and the shared mutable
machinery (`Rc<RefCell<Env>>` frames, `Rc<RefCell<_>>` value cells) becomes
an explicit heap inside `InterpState`.  Fuel exhaustion is `none`; the Rust
code has no fuel, so every theorem about a concrete program picks a fuel
large enough for the whole run.
-/

namespace ArcLang

/-- Modelled from the spec: `tools::results::Loc` is not under `src/`.
The spec only says a source location is line/column/span data attached to
every AST node and carried by errors; the interpreter never inspects it. -/
structure Loc where
  line : Nat
  col : Nat
deriving DecidableEq, Repr

/-- The expression AST (`frontend::ast::expr`).  The `expr.rs` file is not
under `src/`; the variants and their fields are the ones listed in the spec
(binary, assignment, grouping, int/real/string literal, identifier, unary,
logical, call) with exactly the fields `interpreter.rs` accesses
(`left`, `right`, `operator`, `name`, `value`, `callee`, `args`, `loc`).
Operators are kept as strings because the interpreter matches on
`expr.operator.as_str()`.  Real literals are modelled with `Rat` in place
of `f64`; no claim computes with reals, only their kind tag matters. -/
inductive Expr where
  | binary (left : Expr) (operator : String) (right : Expr) (loc : Loc)
  | assign (name : String) (value : Expr) (loc : Loc)
  | grouping (expr : Expr) (loc : Loc)
  | intLiteral (value : Int) (loc : Loc)
  | realLiteral (value : Rat) (loc : Loc)
  | strLiteral (value : String) (loc : Loc)
  | identifier (name : String) (loc : Loc)
  | unary (operator : String) (right : Expr) (loc : Loc)
  | logical (left : Expr) (operator : String) (right : Expr) (loc : Loc)
  | call (callee : Expr) (args : List Expr) (loc : Loc)
deriving Repr

/-- `Expr::get_loc`, used by `visit_binary_expr` to locate the
uninitialized-value error at the offending operand. -/
def Expr.getLoc : Expr → Loc
  | .binary _ _ _ loc => loc
  | .assign _ _ loc => loc
  | .grouping _ loc => loc
  | .intLiteral _ loc => loc
  | .realLiteral _ loc => loc
  | .strLiteral _ loc => loc
  | .identifier _ loc => loc
  | .unary _ _ loc => loc
  | .logical _ _ _ loc => loc
  | .call _ _ loc => loc

/-- `frontend::ast::stmt::VarDeclStmt` (src/crates/frontend/src/ast/stmt.rs). -/
structure VarDeclStmt where
  name : String
  value : Option Expr
  loc : Loc
deriving Repr

/-- `frontend::ast::stmt::ForRange`.  The Rust field `end` is renamed
`stop` because `end` is a Lean keyword. -/
structure ForRange where
  start : Int
  stop : Option Int
deriving Repr

/-- `frontend::ast::stmt::Stmt` (src/crates/frontend/src/ast/stmt.rs).
Each payload struct is inlined into its constructor with the same fields. -/
inductive Stmt where
  | expr (e : Expr) (loc : Loc)
  | print (e : Expr) (loc : Loc)
  | varDecl (vd : VarDeclStmt)
  | block (stmts : List Stmt) (loc : Loc)
  | ifStmt (condition : Expr) (thenBranch : Option Stmt) (elseBranch : Option Stmt) (loc : Loc)
  | whileStmt (condition : Expr) (body : Stmt) (loc : Loc)
  | forStmt (placeholder : VarDeclStmt) (range : ForRange) (body : Stmt) (loc : Loc)
  | fnDecl (name : String) (params : List String) (body : List Stmt) (loc : Loc)
  | returnStmt (value : Option Expr) (loc : Loc)
deriving Repr

/-- Payload of one shared interior-mutable cell.  The Rust runtime keeps
value payloads behind `Rc<RefCell<_>>` (the interpreter reads booleans with
`b.borrow().value`, and `visit_unary_expr` relies on `negate` mutating the
operand in place before returning the very same `RtVal`); the embedding
makes the cells an explicit heap indexed by `Nat` addresses. -/
inductive CellVal where
  | int (i : Int)
  | real (r : Rat)
  | bool (b : Bool)
deriving DecidableEq, Repr

/-- `runtime::values::RtVal`.  `values.rs` is not under `src/`; the variants
are the spec's tagged union (Null, Int, Real, Str, Bool, UserFunction,
NativeFunction).  Int/Real/Bool payloads live in heap cells (see `CellVal`);
a `FuncVal` stores parameter names, body and the index of its captured
frame, exactly the data `RtVal::new_fn(&stmt, self.env.borrow().clone())`
closes over.  The redundant `typ : RtType` tag of the Rust struct always
mirrors the variant and is omitted. -/
inductive RtVal where
  | Null
  | IntVal (addr : Nat)
  | RealVal (addr : Nat)
  | StrVal (s : String)
  | BoolVal (addr : Nat)
  | FuncVal (name : String) (params : List String) (body : List Stmt) (closure : Nat)
  | NativeFnVal (name : String)
deriving Repr

/-- One environment frame: name-to-value bindings plus an optional parent
frame (spec section 3).  `parent` is an index into `InterpState.frames`. -/
structure Frame where
  vars : List (String × RtVal)
  parent : Option Nat
deriving Repr

/-- The interpreter state: the heap of environment frames (the Rust
`Rc<RefCell<Env>>` graph), the heap of shared value cells, the active-frame
index (`Interpreter.env`), and the text printed so far. -/
structure InterpState where
  frames : List Frame
  cells : List CellVal
  env : Nat
  output : List String
deriving Repr

-- ----------------------------------------------------------------------
-- Cell helpers
-- ----------------------------------------------------------------------

def allocCell (s : InterpState) (c : CellVal) : InterpState × Nat :=
  ({ s with cells := s.cells ++ [c] }, s.cells.length)

/-- `i64::into::<RtVal>`: a fresh int value (fresh cell). -/
def mkInt (s : InterpState) (i : Int) : InterpState × RtVal :=
  let p := allocCell s (.int i)
  (p.1, .IntVal p.2)

/-- `f64::into::<RtVal>`: a fresh real value (fresh cell). -/
def mkReal (s : InterpState) (r : Rat) : InterpState × RtVal :=
  let p := allocCell s (.real r)
  (p.1, .RealVal p.2)

/-- `bool::into::<RtVal>`: a fresh bool value (fresh cell). -/
def allocBool (s : InterpState) (b : Bool) : InterpState × RtVal :=
  let p := allocCell s (.bool b)
  (p.1, .BoolVal p.2)

def readInt (s : InterpState) (a : Nat) : Option Int :=
  match s.cells[a]? with
  | some (.int i) => some i
  | _ => none

def readReal (s : InterpState) (a : Nat) : Option Rat :=
  match s.cells[a]? with
  | some (.real r) => some r
  | _ => none

def readBool (s : InterpState) (a : Nat) : Option Bool :=
  match s.cells[a]? with
  | some (.bool b) => some b
  | _ => none

/-- The boolean payload read `b.borrow().value`; well-formed states always
hold a bool cell at the address of a `BoolVal`. -/
def cellBool (s : InterpState) (a : Nat) : Bool :=
  match readBool s a with
  | some b => b
  | none => false

def updateCell (s : InterpState) (a : Nat) (c : CellVal) : InterpState :=
  { s with cells := s.cells.set a c }

/-- The `lhs == RtVal::new_null()` test of `visit_binary_expr`: only the
`Null` variant compares equal to the freshly made null. -/
def isNull : RtVal → Bool
  | .Null => true
  | _ => false

-- ----------------------------------------------------------------------
-- Environment (modelled from the spec)
-- ----------------------------------------------------------------------

/-- Replace the value stored under `name` in a binding list (the `HashMap`
entry update performed by a successful `assign`); inserts nothing. -/
def setEntry : List (String × RtVal) → String → RtVal → List (String × RtVal)
  | [], _, _ => []
  | (k, w) :: rest, name, v =>
    if k == name then (k, v) :: rest else (k, w) :: setEntry rest name v

def Frame.localGet (f : Frame) (name : String) : Option RtVal :=
  (f.vars.find? (fun p => p.1 == name)).map (fun p => p.2)

/-- Modelled from the spec: `environment.rs` is not under `src/`.
`Env::declare_var` (spec section 4.1) inserts into the local table of the
active frame and fails if the name already exists in this frame. -/
def declare_var (s : InterpState) (name : String) (v : RtVal) :
    InterpState × Except String Unit :=
  match s.frames[s.env]? with
  | none => (s, .error "no active frame")
  | some f =>
    match f.localGet name with
    | some _ => (s, .error ("variable " ++ name ++ " is already declared in this scope"))
    | none =>
      ({ s with frames := s.frames.set s.env { f with vars := f.vars ++ [(name, v)] } },
       .ok ())

/-- Modelled from the spec: `Env::get_var` (spec section 4.1) searches the
local table and delegates to the parent on a miss.  The walk is fuelled by
the frame count; parent links in reachable states always point to earlier
frames, so the fuel never runs out on a chain the Rust code could follow. -/
def lookup_chain (s : InterpState) : Nat → Nat → String → Except String RtVal
  | 0, _, name => .error ("undeclared variable " ++ name)
  | fuel+1, idx, name =>
    match s.frames[idx]? with
    | none => .error ("undeclared variable " ++ name)
    | some f =>
      match f.localGet name with
      | some v => .ok v
      | none =>
        match f.parent with
        | some pIdx => lookup_chain s fuel pIdx name
        | none => .error ("undeclared variable " ++ name)

def get_var (s : InterpState) (name : String) : Except String RtVal :=
  lookup_chain s s.frames.length s.env name

/-- Modelled from the spec: `Env::assign` (spec section 4.1) mutates the
nearest existing binding found by walking the parent chain and never
creates a binding. -/
def assign_chain (s : InterpState) : Nat → Nat → String → RtVal → Except String InterpState
  | 0, _, name, _ => .error ("undeclared variable " ++ name)
  | fuel+1, idx, name, v =>
    match s.frames[idx]? with
    | none => .error ("undeclared variable " ++ name)
    | some f =>
      match f.localGet name with
      | some _ =>
        .ok { s with frames := s.frames.set idx { f with vars := setEntry f.vars name v } }
      | none =>
        match f.parent with
        | some pIdx => assign_chain s fuel pIdx name v
        | none => .error ("undeclared variable " ++ name)

def assign (s : InterpState) (name : String) (v : RtVal) : Except String InterpState :=
  assign_chain s s.frames.length s.env name v

-- ----------------------------------------------------------------------
-- Errors (`InterpErr` in interpreter.rs)
-- ----------------------------------------------------------------------

/-- `InterpErr`, one constructor per Rust variant, same payloads. -/
inductive InterpErr where
  | OperationEvaluation (msg : String)
  | BangOpOnNonBool
  | NegateNonNumeric
  | Negation (msg : String)
  | VarDeclEnv (msg : String)
  | GetVarEnv (msg : String)
  | AssignEnv (msg : String)
  | UninitializedValue
  | NonBoolIfCond
  | NonBoolWhileCond
  | ForLoop (msg : String)
  | NonFnCall
  | WrongArgsNb (expected got : Nat)
  | FnCall (msg : String)
  | Return (v : RtVal)
deriving Repr

/-- The `thiserror` display strings of `InterpErr` (used when an error is
re-wrapped as `FnCall(e.err.to_string())`).  The `Return` arm renders a
placeholder for the value: the real display needs the cell heap, and a
`Return` is always consumed at the call boundary before any wrapping. -/
def InterpErr.toMessage : InterpErr → String
  | .OperationEvaluation m => m
  | .BangOpOnNonBool => "can't use '!' token on anything other than a bool value"
  | .NegateNonNumeric => "can't use '-' token on anything other than an int or a real value"
  | .Negation m => m
  | .VarDeclEnv m => m
  | .GetVarEnv m => m
  | .AssignEnv m => m
  | .UninitializedValue => "uninitialized variable"
  | .NonBoolIfCond => "'if' condition is not a boolean"
  | .NonBoolWhileCond => "'while' condition is not a boolean"
  | .ForLoop m => m
  | .NonFnCall => "only functions and structures are callable"
  | .WrongArgsNb e g => "wrong arguments number: expected " ++ toString e ++ " but got " ++ toString g
  | .FnCall m => m
  | .Return _ => "return: <value>"

/-- `PhyResult<InterpErr>` (`tools::results` is not under `src/`): the error
kind plus the optional source location every construction site passes. -/
structure PhyRes where
  err : InterpErr
  loc : Option Loc
deriving Repr

/-- `InterpRes = Result<RtVal, PhyResult<InterpErr>>`. -/
abbrev InterpRes := Except PhyRes RtVal

-- ----------------------------------------------------------------------
-- Value model (modelled from the spec)
-- ----------------------------------------------------------------------

/-- Modelled from the spec: `values.rs` is not under `src/`.
`RtVal::negate` (spec section 4.2) negates in place through the value's
cell: arithmetic minus on Int/Real, logical not on Bool, and an internal
failure on every other kind.  The call site (`visit_unary_expr`) discards
the unit result and returns the operand value itself. -/
def negate (s : InterpState) (v : RtVal) : InterpState × Except String Unit :=
  match v with
  | .IntVal a =>
    match readInt s a with
    | some i => (updateCell s a (.int (-i)), .ok ())
    | none => (s, .error "corrupted int cell")
  | .RealVal a =>
    match readReal s a with
    | some r => (updateCell s a (.real (-r)), .ok ())
    | none => (s, .error "corrupted real cell")
  | .BoolVal a =>
    match readBool s a with
    | some b => (updateCell s a (.bool (!b)), .ok ())
    | none => (s, .error "corrupted bool cell")
  | _ => (s, .error "can't negate this type of value")

def okInt (s : InterpState) (i : Int) : InterpState × Except String RtVal :=
  let p := mkInt s i
  (p.1, .ok p.2)

def okReal (s : InterpState) (r : Rat) : InterpState × Except String RtVal :=
  let p := mkReal s r
  (p.1, .ok p.2)

def okBool (s : InterpState) (b : Bool) : InterpState × Except String RtVal :=
  let p := allocBool s b
  (p.1, .ok p.2)

/-- Int/Int arm of `operate`. -/
def intOp (s : InterpState) (i j : Int) (op : String) : InterpState × Except String RtVal :=
  match op with
  | "+" => okInt s (i + j)
  | "-" => okInt s (i - j)
  | "*" => okInt s (i * j)
  | "/" => okInt s (i / j)
  | "<" => okBool s (decide (i < j))
  | ">" => okBool s (decide (j < i))
  | "<=" => okBool s (decide (i ≤ j))
  | ">=" => okBool s (decide (j ≤ i))
  | "==" => okBool s (i == j)
  | "!=" => okBool s (i != j)
  | _ => (s, .error ("operator " ++ op ++ " not supported between int values"))

/-- Numeric arm of `operate` with at least one Real operand (ints promote). -/
def ratOp (s : InterpState) (x y : Rat) (op : String) : InterpState × Except String RtVal :=
  match op with
  | "+" => okReal s (x + y)
  | "-" => okReal s (x - y)
  | "*" => okReal s (x * y)
  | "/" => okReal s (x / y)
  | "<" => okBool s (decide (x < y))
  | ">" => okBool s (decide (y < x))
  | "<=" => okBool s (decide (x ≤ y))
  | ">=" => okBool s (decide (y ≤ x))
  | "==" => okBool s (x == y)
  | "!=" => okBool s (x != y)
  | _ => (s, .error ("operator " ++ op ++ " not supported between real values"))

/-- String repetition, `"foo" * 4`. -/
def repeatStr (x : String) (j : Int) : String :=
  String.join (List.replicate j.toNat x)

/-- Modelled from the spec: `values.rs` is not under `src/`.
`RtVal::operate` (spec section 4.2): arithmetic and comparison on numeric
operands (promoting to Real when either side is Real), string repetition by
an integer count in either operand order, string concatenation via `+`, and
an operation error on every combination outside this table. -/
def operate (s : InterpState) (lhs rhs : RtVal) (op : String) :
    InterpState × Except String RtVal :=
  match lhs, rhs with
  | .IntVal a, .IntVal b =>
    match readInt s a, readInt s b with
    | some i, some j => intOp s i j op
    | _, _ => (s, .error "corrupted int cell")
  | .IntVal a, .RealVal b =>
    match readInt s a, readReal s b with
    | some i, some y => ratOp s (i : Rat) y op
    | _, _ => (s, .error "corrupted cell")
  | .RealVal a, .IntVal b =>
    match readReal s a, readInt s b with
    | some x, some j => ratOp s x (j : Rat) op
    | _, _ => (s, .error "corrupted cell")
  | .RealVal a, .RealVal b =>
    match readReal s a, readReal s b with
    | some x, some y => ratOp s x y op
    | _, _ => (s, .error "corrupted cell")
  | .StrVal x, .StrVal y =>
    match op with
    | "+" => (s, .ok (.StrVal (x ++ y)))
    | "==" => okBool s (x == y)
    | "!=" => okBool s (x != y)
    | _ => (s, .error ("operator " ++ op ++ " not supported between string values"))
  | .StrVal x, .IntVal b =>
    match op, readInt s b with
    | "*", some j => (s, .ok (.StrVal (repeatStr x j)))
    | _, _ => (s, .error "operation not allowed between a string and an int")
  | .IntVal a, .StrVal y =>
    match op, readInt s a with
    | "*", some i => (s, .ok (.StrVal (repeatStr y i)))
    | _, _ => (s, .error "operation not allowed between an int and a string")
  | .BoolVal a, .BoolVal b =>
    match op with
    | "==" => okBool s (cellBool s a == cellBool s b)
    | "!=" => okBool s (cellBool s a != cellBool s b)
    | _ => (s, .error ("operator " ++ op ++ " not supported between bool values"))
  | _, _ => (s, .error "operation not allowed between these value types")

/-- Modelled from the spec: the `Display` form printed by
`visit_print_stmt` (`println!("{}", value)`); reads shared cells. -/
def renderVal (s : InterpState) : RtVal → String
  | .Null => "null"
  | .IntVal a =>
    match readInt s a with
    | some i => toString i
    | none => "<corrupted>"
  | .RealVal a =>
    match readReal s a with
    | some r => toString r
    | none => "<corrupted>"
  | .StrVal x => x
  | .BoolVal a =>
    match readBool s a with
    | some b => toString b
    | none => "<corrupted>"
  | .FuncVal name _ _ _ => "<fn " ++ name ++ ">"
  | .NativeFnVal name => "<native fn " ++ name ++ ">"

-- ----------------------------------------------------------------------
-- For-loop ranges
-- ----------------------------------------------------------------------

/-- The Rust half-open integer range `a..b` as a list. -/
def intRange (a b : Int) : List Int :=
  (List.range (b - a).toNat).map (fun k => a + ((k : Nat) : Int))

/-- The iteration list of `visit_for_stmt`: `0..start+1` when the range has
no `end`, `start..end+1` otherwise. -/
def rangeList (r : ForRange) : List Int :=
  match r.stop with
  | none => intRange 0 (r.start + 1)
  | some e => intRange r.start (e + 1)

-- ----------------------------------------------------------------------
-- The interpreter engine
-- ----------------------------------------------------------------------

/-- The propagation of the Rust `?` operator on `InterpRes`: fuel
exhaustion and errors pass through, a success feeds the continuation. -/
def resBind (r : Option (InterpState × InterpRes))
    (f : InterpState → RtVal → Option (InterpState × InterpRes)) :
    Option (InterpState × InterpRes) :=
  match r with
  | none => none
  | some (s, .error e) => some (s, .error e)
  | some (s, .ok v) => f s v

/-- One evaluation request.  Each constructor is one visitor method of
`interpreter.rs` or one of its internal loops:
`expr`/`stmt` are `Expr::accept`/`Stmt::accept`, `varDeclS` is
`visit_var_decl_stmt` (also entered from `visit_for_stmt` for the
placeholder), `execBlock` is `execute_block_stmt`, `stmtsLoop` its inner
statement loop, `whileLoop` the `loop` of `visit_while_stmt`, `forIter`
the `for i in range` loop of `visit_for_stmt`, `argsLoop` the argument
loop of `visit_call_expr`, `finishCall` its callable/arity dispatch, and
`callFn` is `Function::call` of the callable abstraction. -/
inductive Req where
  | expr (e : Expr)
  | stmt (st : Stmt)
  | varDeclS (vd : VarDeclStmt)
  | execBlock (fr : Frame) (stmts : List Stmt)
  | stmtsLoop (res : RtVal) (stmts : List Stmt)
  | whileLoop (cond : Expr) (body : Stmt) (loc : Loc)
  | forIter (name : String) (iters : List Int) (body : Stmt) (loc : Loc)
  | argsLoop (callee : RtVal) (acc : List RtVal) (args : List Expr) (loc : Loc)
  | finishCall (callee : RtVal) (args : List RtVal) (loc : Loc)
  | callFn (params : List String) (body : List Stmt) (closure : Nat) (args : List RtVal)

/-- The interpreter engine: a fuel-indexed transcription of the
`VisitStmt`/`VisitExpr` implementations of `interpreter.rs`.  `none` means
the fuel ran out before the Rust code would have finished. -/
def evalCore : Nat → InterpState → Req → Option (InterpState × InterpRes)
  | 0, _, _ => none
  | n+1, s, .expr e =>
    match e with
    -- visit_binary_expr
    | .binary left op right loc =>
      resBind (evalCore n s (.expr left)) fun s1 lhs =>
        if isNull lhs then some (s1, .error ⟨.UninitializedValue, some left.getLoc⟩)
        else
          resBind (evalCore n s1 (.expr right)) fun s2 rhs =>
            if isNull rhs then some (s2, .error ⟨.UninitializedValue, some right.getLoc⟩)
            else
              match operate s2 lhs rhs op with
              | (s3, .ok res) => some (s3, .ok res)
              | (s3, .error msg) => some (s3, .error ⟨.OperationEvaluation msg, some loc⟩)
    -- visit_assign_expr
    | .assign name value loc =>
      resBind (evalCore n s (.expr value)) fun s1 v =>
        match assign s1 name v with
        | .ok s2 => some (s2, .ok .Null)
        | .error msg => some (s1, .error ⟨.AssignEnv msg, some loc⟩)
    -- visit_grouping_expr
    | .grouping inner _ => evalCore n s (.expr inner)
    -- visit_int_literal_expr
    | .intLiteral v _ =>
      let p := mkInt s v
      some (p.1, .ok p.2)
    -- visit_real_literal_expr
    | .realLiteral v _ =>
      let p := mkReal s v
      some (p.1, .ok p.2)
    -- visit_str_literal_expr
    | .strLiteral v _ => some (s, .ok (.StrVal v))
    -- visit_identifier_expr
    | .identifier name loc =>
      match name with
      | "true" =>
        let p := allocBool s true
        some (p.1, .ok p.2)
      | "false" =>
        let p := allocBool s false
        some (p.1, .ok p.2)
      | "null" => some (s, .ok .Null)
      | _ =>
        match get_var s name with
        | .ok v => some (s, .ok v)
        | .error msg => some (s, .error ⟨.GetVarEnv msg, some loc⟩)
    -- visit_unary_expr
    | .unary op right loc =>
      resBind (evalCore n s (.expr right)) fun s1 value =>
        match value, op with
        | .IntVal _, "!" => some (s1, .error ⟨.BangOpOnNonBool, some loc⟩)
        | .RealVal _, "!" => some (s1, .error ⟨.BangOpOnNonBool, some loc⟩)
        | .BoolVal _, "-" => some (s1, .error ⟨.NegateNonNumeric, some loc⟩)
        | .StrVal _, "-" => some (s1, .error ⟨.NegateNonNumeric, some loc⟩)
        | .Null, "-" => some (s1, .error ⟨.NegateNonNumeric, some loc⟩)
        | _, _ =>
          match negate s1 value with
          | (s2, .ok _) => some (s2, .ok value)
          | (s2, .error msg) => some (s2, .error ⟨.Negation msg, some loc⟩)
    -- visit_logical_expr
    | .logical left op right loc =>
      resBind (evalCore n s (.expr left)) fun s1 lv =>
        if op == "or" then
          match lv with
          | .BoolVal a =>
            if cellBool s1 a then some (s1, .ok (.BoolVal a))
            else evalCore n s1 (.expr right)
          | _ => some (s1, .error ⟨.NonBoolIfCond, some loc⟩)
        else if op == "and" then
          match lv with
          | .BoolVal a =>
            if cellBool s1 a then evalCore n s1 (.expr right)
            else some (s1, .ok (.BoolVal a))
          | _ => some (s1, .error ⟨.NonBoolIfCond, some loc⟩)
        else evalCore n s1 (.expr right)
    -- visit_call_expr
    | .call callee args loc =>
      resBind (evalCore n s (.expr callee)) fun s1 calleeV =>
        evalCore n s1 (.argsLoop calleeV [] args loc)
  | n+1, s, .stmt st =>
    match st with
    -- visit_expr_stmt
    | .expr e _ => evalCore n s (.expr e)
    -- visit_print_stmt
    | .print e _ =>
      resBind (evalCore n s (.expr e)) fun s1 v =>
        some ({ s1 with output := s1.output ++ [renderVal s1 v] }, .ok .Null)
    | .varDecl vd => evalCore n s (.varDeclS vd)
    -- visit_block_stmt
    | .block stmts _ =>
      resBind (evalCore n s (.execBlock ⟨[], some s.env⟩ stmts)) fun s1 _ =>
        some (s1, .ok .Null)
    -- visit_if_stmt
    | .ifStmt cond thenBranch elseBranch loc =>
      resBind (evalCore n s (.expr cond)) fun s1 c =>
        match c with
        | .BoolVal a =>
          if cellBool s1 a then
            match thenBranch with
            | some t => evalCore n s1 (.stmt t)
            | none => some (s1, .ok .Null)
          else
            match elseBranch with
            | some e2 => evalCore n s1 (.stmt e2)
            | none => some (s1, .ok .Null)
        | _ => some (s1, .error ⟨.NonBoolIfCond, some loc⟩)
    -- visit_while_stmt
    | .whileStmt cond body loc => evalCore n s (.whileLoop cond body loc)
    -- visit_for_stmt: note that the two `resBind` propagations below
    -- return early exactly like the Rust `?`, so the active frame is NOT
    -- restored on the error paths; only the success path reinstates
    -- `prevEnv`.
    | .forStmt placeholder range body loc =>
      let prevEnv := s.env
      let s1 := { s with frames := s.frames ++ [⟨[], some prevEnv⟩], env := s.frames.length }
      resBind (evalCore n s1 (.varDeclS placeholder)) fun s2 _ =>
        resBind (evalCore n s2 (.forIter placeholder.name (rangeList range) body loc)) fun s3 _ =>
          some ({ s3 with env := prevEnv }, .ok .Null)
    -- visit_fn_decl_stmt
    | .fnDecl name params body loc =>
      match declare_var s name (.FuncVal name params body s.env) with
      | (s1, .ok _) => some (s1, .ok .Null)
      | (_, .error _) => some (s, .error ⟨.VarDeclEnv name, some loc⟩)
    -- visit_return_stmt
    | .returnStmt value _ =>
      match value with
      | none => some (s, .error ⟨.Return .Null, none⟩)
      | some vexpr =>
        resBind (evalCore n s (.expr vexpr)) fun s1 rv =>
          some (s1, .error ⟨.Return rv, none⟩)
  -- visit_var_decl_stmt
  | n+1, s, .varDeclS vd =>
    match vd.value with
    | some vexpr =>
      resBind (evalCore n s (.expr vexpr)) fun s1 v =>
        match declare_var s1 vd.name v with
        | (s2, .ok _) => some (s2, .ok .Null)
        | (s2, .error msg) => some (s2, .error ⟨.VarDeclEnv msg, some vd.loc⟩)
    | none =>
      match declare_var s vd.name .Null with
      | (s2, .ok _) => some (s2, .ok .Null)
      | (s2, .error msg) => some (s2, .error ⟨.VarDeclEnv msg, some vd.loc⟩)
  -- execute_block_stmt: installs the given frame, runs the statements,
  -- and restores the previous active frame on BOTH outcomes (the Rust
  -- loop breaks on the first error and falls through to the restore).
  | n+1, s, .execBlock fr stmts =>
    let prevEnv := s.env
    let s1 := { s with frames := s.frames ++ [fr], env := s.frames.length }
    match evalCore n s1 (.stmtsLoop .Null stmts) with
    | none => none
    | some (s2, res) => some ({ s2 with env := prevEnv }, res)
  | n+1, s, .stmtsLoop res stmts =>
    match stmts with
    | [] => some (s, .ok res)
    | st :: rest =>
      resBind (evalCore n s (.stmt st)) fun s1 r =>
        evalCore n s1 (.stmtsLoop r rest)
  | n+1, s, .whileLoop cond body loc =>
    resBind (evalCore n s (.expr cond)) fun s1 c =>
      match c with
      | .BoolVal a =>
        if cellBool s1 a then
          resBind (evalCore n s1 (.stmt body)) fun s2 _ =>
            evalCore n s2 (.whileLoop cond body loc)
        else some (s1, .ok .Null)
      | _ => some (s1, .error ⟨.NonBoolWhileCond, some loc⟩)
  | n+1, s, .forIter name iters body loc =>
    match iters with
    | [] => some (s, .ok .Null)
    | i :: rest =>
      let p := mkInt s i
      match assign p.1 name p.2 with
      | .error msg => some (p.1, .error ⟨.ForLoop msg, some loc⟩)
      | .ok s2 =>
        resBind (evalCore n s2 (.stmt body)) fun s3 _ =>
          evalCore n s3 (.forIter name rest body loc)
  | n+1, s, .argsLoop calleeV acc args loc =>
    match args with
    | [] => evalCore n s (.finishCall calleeV acc loc)
    | a :: rest =>
      resBind (evalCore n s (.expr a)) fun s1 v =>
        evalCore n s1 (.argsLoop calleeV (acc ++ [v]) rest loc)
  | n+1, s, .finishCall calleeV args loc =>
    match calleeV with
    | .FuncVal _ params body closure =>
      if params.length != args.length then
        some (s, .error ⟨.WrongArgsNb params.length args.length, some loc⟩)
      else
        match evalCore n s (.callFn params body closure args) with
        | none => none
        | some (s1, .ok v) => some (s1, .ok v)
        | some (s1, .error er) => some (s1, .error ⟨.FnCall er.err.toMessage, some loc⟩)
    | _ => some (s, .error ⟨.NonFnCall, some loc⟩)
  -- Modelled from the spec: `callable.rs` is not under `src/`.
  -- `Function::call` (spec section 4.3) creates a new frame whose parent is
  -- the captured frame, binds the parameters positionally, executes the
  -- body as a block, converts a propagated `Return` signal into the call's
  -- successful result, and yields Null when no return fired.
  | n+1, s, .callFn params body closure args =>
    match evalCore n s (.execBlock ⟨params.zip args, some closure⟩ body) with
    | none => none
    | some (s1, .ok _) => some (s1, .ok .Null)
    | some (s1, .error er) =>
      match er.err with
      | .Return v => some (s1, .ok v)
      | _ => some (s1, .error er)

/-- `Expr::accept` dispatched into the engine. -/
def evalExpr (n : Nat) (s : InterpState) (e : Expr) : Option (InterpState × InterpRes) :=
  evalCore n s (.expr e)

/-- `Stmt::accept` dispatched into the engine. -/
def evalStmt (n : Nat) (s : InterpState) (st : Stmt) : Option (InterpState × InterpRes) :=
  evalCore n s (.stmt st)

/-- `Interpreter::execute_block_stmt`. -/
def execute_block_stmt (n : Nat) (s : InterpState) (fr : Frame) (stmts : List Stmt) :
    Option (InterpState × InterpRes) :=
  evalCore n s (.execBlock fr stmts)

/-- `Interpreter::new()`: a globals frame holding the native `clock`
capability, the active frame pointing at globals, empty heaps. -/
def initState : InterpState :=
  { frames := [⟨[("clock", .NativeFnVal "clock")], none⟩]
    cells := []
    env := 0
    output := [] }

/-- The statement loop of `Interpreter::interpret`: `res` starts as Null,
is replaced by each successful statement's value, and the first error is
returned as-is with no further statement executed. -/
def interpret_go (n : Nat) : InterpState → RtVal → List Stmt → Option (InterpState × InterpRes)
  | s, res, [] => some (s, .ok res)
  | s, _, st :: rest =>
    match evalStmt n s st with
    | none => none
    | some (s1, .error e) => some (s1, .error e)
    | some (s1, .ok r) => interpret_go n s1 r rest

/-- `Interpreter::interpret`. -/
def interpret (n : Nat) (s : InterpState) (nodes : List Stmt) :
    Option (InterpState × InterpRes) :=
  interpret_go n s .Null nodes

/-- Extract the terminal integer of a run: the run must have finished with
a successful `IntVal` whose cell holds the integer. -/
def resultInt (r : Option (InterpState × InterpRes)) : Option Int :=
  match r with
  | some (s, .ok (.IntVal a)) => readInt s a
  | _ => none


-- ----------------------------------------------------------------------
-- Run-observation helpers
-- ----------------------------------------------------------------------

/-- The terminal value of a successful run. -/
def resultVal : Option (InterpState × InterpRes) → Option RtVal
  | some (_, .ok v) => some v
  | _ => none

/-- The error kind of a failed run. -/
def errKindOf : Option (InterpState × InterpRes) → Option InterpErr
  | some (_, .error e) => some e.err
  | _ => none

/-- The source location attached to the error of a failed run. -/
def errLocOf : Option (InterpState × InterpRes) → Option (Option Loc)
  | some (_, .error e) => some e.loc
  | _ => none

/-- The active-frame index after a finished run (success or error). -/
def envOf : Option (InterpState × InterpRes) → Option Nat
  | some (s, _) => some s.env
  | none => none

/-- The number of allocated frames after a finished run. -/
def framesCountOf : Option (InterpState × InterpRes) → Option Nat
  | some (s, _) => some s.frames.length
  | none => none

/-- The binding names of frame `i` after a finished run, in declaration
order. -/
def frameNames (r : Option (InterpState × InterpRes)) (i : Nat) : Option (List String) :=
  match r with
  | some (s, _) => (s.frames[i]?).map (fun f => f.vars.map Prod.fst)
  | none => none

/-- The integer bound to `name` in frame `i` after a finished run. -/
def bindingInt (r : Option (InterpState × InterpRes)) (i : Nat) (name : String) : Option Int :=
  match r with
  | some (s, _) =>
    match s.frames[i]? with
    | some f =>
      match f.localGet name with
      | some (.IntVal a) => readInt s a
      | _ => none
    | none => none
  | none => none

-- ----------------------------------------------------------------------
-- Concrete programs used by the claims
-- ----------------------------------------------------------------------

def loc0 : Loc := ⟨0, 0⟩

/-- `a = a + i` wrapped in a block, the body of the summing for loops. -/
def sumBody : Stmt :=
  .block [.expr (.assign "a" (.binary (.identifier "a" loc0) "+" (.identifier "i" loc0) loc0) loc0) loc0] loc0

/-- `var a = 0  for i in 5 { a = a + i }  a`. -/
def progSumTo5 : List Stmt :=
  [ .varDecl ⟨"a", some (.intLiteral 0 loc0), loc0⟩
  , .forStmt ⟨"i", none, loc0⟩ ⟨5, none⟩ sumBody loc0
  , .expr (.identifier "a" loc0) loc0 ]

/-- `var a = 0  for i in 5..10 { a = a + i }  a`. -/
def progSum5To10 : List Stmt :=
  [ .varDecl ⟨"a", some (.intLiteral 0 loc0), loc0⟩
  , .forStmt ⟨"i", none, loc0⟩ ⟨5, some 10⟩ sumBody loc0
  , .expr (.identifier "a" loc0) loc0 ]

/-- `for i in 2 { 0 }`: a for statement whose body is a bare expression
statement, so every frame the construct allocates belongs to the loop
itself. -/
def forSingleFrameStmt : Stmt :=
  .forStmt ⟨"i", none, loc0⟩ ⟨2, none⟩ (.expr (.intLiteral 0 loc0) loc0) loc0

/-- `for i in 0 { zzz }`: the body fails with an unresolved-name error on
the first iteration, driving `visit_for_stmt` through its early-return
path. -/
def forLeakStmt : Stmt :=
  .forStmt ⟨"i", none, loc0⟩ ⟨0, none⟩ (.expr (.identifier "zzz" loc0) loc0) loc0

/-- `var b  3 + b` with the identifier `b` sitting at source line 2,
column 5. -/
def progUninit : List Stmt :=
  [ .varDecl ⟨"b", none, loc0⟩
  , .expr (.binary (.intLiteral 3 loc0) "+" (.identifier "b" ⟨2, 5⟩) loc0) loc0 ]

/-- `var a = 1  a = 2`: the assignment is the final statement. -/
def progAssignLast : List Stmt :=
  [ .varDecl ⟨"a", some (.intLiteral 1 loc0), loc0⟩
  , .expr (.assign "a" (.intLiteral 2 loc0) loc0) loc0 ]

/-- `var a = 1  a = 2  a`. -/
def progAssignRead : List Stmt :=
  progAssignLast ++ [.expr (.identifier "a" loc0) loc0]

/-- Helper for C7: the location discipline of a finished evaluation — the
error is the `Return` control-transfer signal exactly when it carries no
source location. -/
def retIffNoLoc (r : Option (InterpState × InterpRes)) : Prop :=
  ∀ s e, r = some (s, .error e) → ((∃ v, e.err = InterpErr.Return v) ↔ e.loc = none)

-- ----------------------------------------------------------------------
-- Claims
-- ----------------------------------------------------------------------

/-- C1: the claim says every scope-introducing construct restores the
previously active frame on every exit path, including genuine errors and
propagating return signals.  `visit_for_stmt` violates this: its `?`
early-returns (placeholder declaration, per-iteration assignment, body
execution) run before `self.env.replace(prev_env)`, so an error escaping
the loop leaves the loop frame installed.  Concretely, running
`for i in 0 { zzz }` from the initial state (active frame 0) fails with
the unresolved-name error and leaves the active frame at index 1 — the
loop's own frame — instead of restoring index 0. -/
theorem claim_C1_for_stmt_leaks_frame_on_error :
    envOf (evalStmt 20 initState forLeakStmt) = some 1 ∧
    initState.env = 0 ∧
    errKindOf (evalStmt 20 initState forLeakStmt) = some (.GetVarEnv "undeclared variable zzz") :=
  ⟨rfl, rfl, rfl⟩

/-- C2 counterexample: the claim says the call-site pre-check of
`visit_unary_expr` rejects every invalid operand/operator combination
before `negate` is invoked, making `negate`'s internal failure path
unreachable.  It does not: `!` applied to the string `"foo"` is an invalid
combination (logical not is valid only on Bool), yet it passes the
pre-check — which only rejects `!` on Int/Real — and the failure is raised
by `negate`'s internal path, surfacing as the `Negation` wrapper error
rather than `BangOpOnNonBool`. -/
theorem claim_C2_counterexample :
    evalExpr 10 initState (.unary "!" (.strLiteral "foo" loc0) ⟨1, 1⟩) =
      some (initState, .error ⟨.Negation "can't negate this type of value", some ⟨1, 1⟩⟩) :=
  rfl

/-- C2 amended: the call-site pre-check of `visit_unary_expr` rejects `!`
on Int/Real operands with `BangOpOnNonBool` and `-` on Bool/Str/Null
operands with `NegateNonNumeric` before `negate` is invoked; combinations
outside both pattern sets — such as `!` on a string, `!` on null, or `-`
on a native function value — pass the pre-check and are rejected by
`negate`'s internal failure path (surfacing as the `Negation` wrapper
error).  In particular `-"foo"` fails with the non-numeric-negate error
and `!8` with the bang-on-non-bool error, both raised by the pre-check. -/
theorem claim_C2_amended :
    (∀ n s r loc s1 a, evalExpr n s r = some (s1, .ok (.IntVal a)) →
      evalExpr (n+1) s (.unary "!" r loc) = some (s1, .error ⟨.BangOpOnNonBool, some loc⟩)) ∧
    (∀ n s r loc s1 a, evalExpr n s r = some (s1, .ok (.RealVal a)) →
      evalExpr (n+1) s (.unary "!" r loc) = some (s1, .error ⟨.BangOpOnNonBool, some loc⟩)) ∧
    (∀ n s r loc s1 a, evalExpr n s r = some (s1, .ok (.BoolVal a)) →
      evalExpr (n+1) s (.unary "-" r loc) = some (s1, .error ⟨.NegateNonNumeric, some loc⟩)) ∧
    (∀ n s r loc s1 x, evalExpr n s r = some (s1, .ok (.StrVal x)) →
      evalExpr (n+1) s (.unary "-" r loc) = some (s1, .error ⟨.NegateNonNumeric, some loc⟩)) ∧
    (∀ n s r loc s1, evalExpr n s r = some (s1, .ok .Null) →
      evalExpr (n+1) s (.unary "-" r loc) = some (s1, .error ⟨.NegateNonNumeric, some loc⟩)) ∧
    (∀ n s r loc s1 x, evalExpr n s r = some (s1, .ok (.StrVal x)) →
      evalExpr (n+1) s (.unary "!" r loc) =
        some (s1, .error ⟨.Negation "can't negate this type of value", some loc⟩)) ∧
    (∀ n s r loc s1, evalExpr n s r = some (s1, .ok .Null) →
      evalExpr (n+1) s (.unary "!" r loc) =
        some (s1, .error ⟨.Negation "can't negate this type of value", some loc⟩)) ∧
    (∀ n s r loc s1 f, evalExpr n s r = some (s1, .ok (.NativeFnVal f)) →
      evalExpr (n+1) s (.unary "-" r loc) =
        some (s1, .error ⟨.Negation "can't negate this type of value", some loc⟩)) ∧
    errKindOf (evalExpr 10 initState (.unary "!" (.intLiteral 8 loc0) loc0)) =
      some .BangOpOnNonBool ∧
    errKindOf (evalExpr 10 initState (.unary "-" (.strLiteral "foo" loc0) loc0)) =
      some .NegateNonNumeric := by
  refine ⟨?_, ?_, ?_, ?_, ?_, ?_, ?_, ?_, rfl, rfl⟩ <;>
    · intros
      rename_i h
      simp only [evalExpr] at h ⊢
      simp only [evalCore]
      rw [h]; rfl

/-- C2 amended witness: `!8` evaluated from the initial state hits the
pre-check's bang-on-non-bool rejection. -/
theorem claim_C2_amended_witness :
    evalExpr 2 initState (.unary "!" (.intLiteral 8 loc0) loc0) =
      some ((mkInt initState 8).1, .error ⟨.BangOpOnNonBool, some loc0⟩) :=
  claim_C2_amended.1 1 initState (.intLiteral 8 loc0) loc0 (mkInt initState 8).1 0 rfl

/-- C3: in `visit_logical_expr`, a non-Bool left operand fails with
`NonBoolIfCond` — the very same error kind `visit_if_stmt` raises for a
non-bool condition — without the right operand ever being evaluated; a
Bool left operand that triggers the short-circuit (`true` for `or`,
`false` for `and`) is returned itself with the right operand untouched
(the state is exactly the post-left state, so none of the right operand's
side effects occur); otherwise the whole expression evaluates to exactly
the evaluation of the right operand, with no boolean-kind check applied
to it. -/
theorem claim_C3_logical_short_circuit :
    (∀ n s l r loc s1 v, evalExpr n s l = some (s1, .ok v) →
      (∀ a, v ≠ RtVal.BoolVal a) →
      evalExpr (n+1) s (.logical l "or" r loc) = some (s1, .error ⟨.NonBoolIfCond, some loc⟩)) ∧
    (∀ n s l r loc s1 v, evalExpr n s l = some (s1, .ok v) →
      (∀ a, v ≠ RtVal.BoolVal a) →
      evalExpr (n+1) s (.logical l "and" r loc) = some (s1, .error ⟨.NonBoolIfCond, some loc⟩)) ∧
    (∀ n s l r loc s1 a, evalExpr n s l = some (s1, .ok (.BoolVal a)) →
      cellBool s1 a = true →
      evalExpr (n+1) s (.logical l "or" r loc) = some (s1, .ok (.BoolVal a))) ∧
    (∀ n s l r loc s1 a, evalExpr n s l = some (s1, .ok (.BoolVal a)) →
      cellBool s1 a = false →
      evalExpr (n+1) s (.logical l "and" r loc) = some (s1, .ok (.BoolVal a))) ∧
    (∀ n s l r loc s1 a, evalExpr n s l = some (s1, .ok (.BoolVal a)) →
      cellBool s1 a = false →
      evalExpr (n+1) s (.logical l "or" r loc) = evalExpr n s1 r) ∧
    (∀ n s l r loc s1 a, evalExpr n s l = some (s1, .ok (.BoolVal a)) →
      cellBool s1 a = true →
      evalExpr (n+1) s (.logical l "and" r loc) = evalExpr n s1 r) ∧
    (∀ n s cond tB eB loc s1 v, evalExpr n s cond = some (s1, .ok v) →
      (∀ a, v ≠ RtVal.BoolVal a) →
      evalStmt (n+1) s (.ifStmt cond tB eB loc) = some (s1, .error ⟨.NonBoolIfCond, some loc⟩)) := by
  refine ⟨?_, ?_, ?_, ?_, ?_, ?_, ?_⟩
  case refine_1 =>
    intro n s l r loc s1 v h hnb
    simp only [evalExpr] at h ⊢
    simp only [evalCore]
    rw [h]
    cases v with
    | BoolVal a => exact absurd rfl (hnb a)
    | _ => rfl
  case refine_2 =>
    intro n s l r loc s1 v h hnb
    simp only [evalExpr] at h ⊢
    simp only [evalCore]
    rw [h]
    cases v with
    | BoolVal a => exact absurd rfl (hnb a)
    | _ => rfl
  case refine_7 =>
    intro n s cond tB eB loc s1 v h hnb
    simp only [evalExpr, evalStmt] at h ⊢
    simp only [evalCore]
    rw [h]
    cases v with
    | BoolVal a => exact absurd rfl (hnb a)
    | _ => rfl
  all_goals
    intro n s l r loc s1 a h hcell
    simp only [evalExpr] at h ⊢
    simp only [evalCore]
    rw [h]
    simp [resBind, hcell]

/-- C3 witness: `true or zzz` short-circuits to the left boolean without
touching the unresolved identifier `zzz`. -/
theorem claim_C3_witness :
    evalExpr 2 initState (.logical (.identifier "true" loc0) "or" (.identifier "zzz" loc0) loc0) =
      some ((allocBool initState true).1, .ok (.BoolVal 0)) :=
  claim_C3_logical_short_circuit.2.2.1 1 initState (.identifier "true" loc0)
    (.identifier "zzz" loc0) loc0 (allocBool initState true).1 0 rfl rfl

/-- C4: `visit_binary_expr` evaluates the left operand first; a sentinel
Null left value fails immediately with `UninitializedValue` located at the
left operand, and the right operand is never evaluated (the result is
independent of it); otherwise the right operand is evaluated and subjected
to the same check with the error located at the right operand; only when
both values pass is the operator dispatched to the value model's
`operate`.  Concretely, `var b` with no initializer followed by `3 + b`
fails with the uninitialized-value error at `b`'s location. -/
theorem claim_C4_binary_null_sentinel :
    (∀ n s l op r loc s1, evalExpr n s l = some (s1, .ok .Null) →
      evalExpr (n+1) s (.binary l op r loc) =
        some (s1, .error ⟨.UninitializedValue, some l.getLoc⟩)) ∧
    (∀ n s l op r loc s1 lv s2, evalExpr n s l = some (s1, .ok lv) →
      isNull lv = false →
      evalExpr n s1 r = some (s2, .ok .Null) →
      evalExpr (n+1) s (.binary l op r loc) =
        some (s2, .error ⟨.UninitializedValue, some r.getLoc⟩)) ∧
    (∀ n s l op r loc s1 lv s2 rv, evalExpr n s l = some (s1, .ok lv) →
      isNull lv = false →
      evalExpr n s1 r = some (s2, .ok rv) →
      isNull rv = false →
      evalExpr (n+1) s (.binary l op r loc) =
        (match operate s2 lv rv op with
         | (s3, .ok res) => some (s3, .ok res)
         | (s3, .error msg) => some (s3, .error ⟨.OperationEvaluation msg, some loc⟩))) ∧
    errKindOf (interpret 20 initState progUninit) = some .UninitializedValue ∧
    errLocOf (interpret 20 initState progUninit) = some (some ⟨2, 5⟩) := by
  refine ⟨?_, ?_, ?_, rfl, rfl⟩
  case refine_1 =>
    intro n s l op r loc s1 h
    simp only [evalExpr] at h ⊢
    simp only [evalCore]
    rw [h]; rfl
  case refine_2 =>
    intro n s l op r loc s1 lv s2 h1 hnn h2
    simp only [evalExpr] at h1 h2 ⊢
    simp only [evalCore]
    rw [h1]
    simp only [resBind]
    rw [hnn]
    simp only [Bool.false_eq_true, if_false]
    rw [h2]
    rfl
  case refine_3 =>
    intro n s l op r loc s1 lv s2 rv h1 hnn1 h2 hnn2
    simp only [evalExpr] at h1 h2 ⊢
    simp only [evalCore]
    rw [h1]
    simp only [resBind]
    rw [hnn1]
    simp only [Bool.false_eq_true, if_false]
    rw [h2]
    simp only [resBind]
    rw [hnn2]
    simp only [Bool.false_eq_true, if_false]

/-- C4 witness: `null + zzz` fails at once with the uninitialized-value
error located at the left operand, never touching `zzz`. -/
theorem claim_C4_witness :
    evalExpr 2 initState (.binary (.identifier "null" loc0) "+" (.identifier "zzz" loc0) ⟨9, 9⟩) =
      some (initState, .error ⟨.UninitializedValue, some loc0⟩) :=
  claim_C4_binary_null_sentinel.1 1 initState (.identifier "null" loc0) "+"
    (.identifier "zzz" loc0) ⟨9, 9⟩ initState rfl

/-- Membership in the Rust half-open range `a..b`. -/
theorem mem_intRange (a b i : Int) : i ∈ intRange a b ↔ a ≤ i ∧ i < b := by
  simp only [intRange, List.mem_map, List.mem_range]
  constructor
  · rintro ⟨k, hk, rfl⟩
    omega
  · rintro ⟨h1, h2⟩
    exact ⟨(i - a).toNat, by omega, by omega⟩

/-- C5: `for i in N` iterates the placeholder over exactly the integers
`0 ≤ i ≤ N` and `for i in A..B` over exactly `A ≤ i ≤ B`, both endpoints
inclusive; the loop allocates exactly one child frame for its whole
duration in which the placeholder is declared once (the frame's binding
list is exactly `["i"]`) and reassigned each iteration (ending at the last
range element), and the previous frame is restored on normal completion.
Consequently summing `a = a + i` over `for i in 5` leaves `a = 15` and
over `for i in 5..10` leaves `a = 45`. -/
theorem claim_C5_for_inclusive_range :
    resultInt (interpret 100 initState progSumTo5) = some 15 ∧
    resultInt (interpret 100 initState progSum5To10) = some 45 ∧
    framesCountOf (evalStmt 20 initState forSingleFrameStmt) = some 2 ∧
    frameNames (evalStmt 20 initState forSingleFrameStmt) 1 = some ["i"] ∧
    bindingInt (evalStmt 20 initState forSingleFrameStmt) 1 "i" = some 2 ∧
    envOf (evalStmt 20 initState forSingleFrameStmt) = some 0 ∧
    (∀ N i : Int, i ∈ rangeList ⟨N, none⟩ ↔ (0 ≤ i ∧ i ≤ N)) ∧
    (∀ A B i : Int, i ∈ rangeList ⟨A, some B⟩ ↔ (A ≤ i ∧ i ≤ B)) := by
  refine ⟨rfl, rfl, rfl, rfl, rfl, rfl, ?_, ?_⟩
  · intro N i
    simp only [rangeList]
    rw [mem_intRange]
    omega
  · intro A B i
    simp only [rangeList]
    rw [mem_intRange]
    omega

/-- C5 witness: `3` is among the iterations of `for i in 5`. -/
theorem claim_C5_witness : (3 : Int) ∈ rangeList ⟨5, none⟩ :=
  (claim_C5_for_inclusive_range.2.2.2.2.2.2.1 5 3).mpr ⟨by decide, by decide⟩

/-- Helper for C6: when no frame of the state binds `name`, walking any
chain with any fuel produces the unresolved-name error. -/
theorem lookup_chain_all_miss (s : InterpState) (name : String)
    (h : ∀ f ∈ s.frames, f.localGet name = none) :
    ∀ fuel idx, lookup_chain s fuel idx name = .error ("undeclared variable " ++ name) := by
  intro fuel
  induction fuel with
  | zero => intro idx; rfl
  | succ fuel ih =>
    intro idx
    simp only [lookup_chain]
    cases hf : s.frames[idx]? with
    | none => rfl
    | some f =>
      have hmem : f ∈ s.frames := by
        have := List.getElem?_eq_some_iff.mp hf
        rcases this with ⟨hlt, hget⟩
        exact hget ▸ List.getElem_mem hlt
      dsimp only
      rw [h f hmem]
      cases hp : f.parent with
      | none => rfl
      | some p => exact ih p

/-- C6: the identifier names `true`, `false` and `null` are intercepted by
`visit_identifier_expr` and resolved to a fresh boolean-true value, a
fresh boolean-false value, and the sentinel Null respectively, without any
environment access — the result is the same for every state, whatever any
frame binds under those names; every other identifier is resolved through
`Env::get_var`'s walk of the frame chain, and when no frame in the state
binds the name the evaluation fails with the unresolved-name
(`GetVarEnv`) error. -/
theorem claim_C6_reserved_identifiers :
    (∀ n s loc, evalExpr (n+1) s (.identifier "true" loc) =
      some ((allocBool s true).1, .ok (allocBool s true).2)) ∧
    (∀ n s loc, evalExpr (n+1) s (.identifier "false" loc) =
      some ((allocBool s false).1, .ok (allocBool s false).2)) ∧
    (∀ n s loc, evalExpr (n+1) s (.identifier "null" loc) = some (s, .ok .Null)) ∧
    (∀ n s name loc, name ≠ "true" → name ≠ "false" → name ≠ "null" →
      evalExpr (n+1) s (.identifier name loc) =
        (match get_var s name with
         | .ok v => some (s, .ok v)
         | .error msg => some (s, .error ⟨.GetVarEnv msg, some loc⟩))) ∧
    (∀ s name, (∀ f ∈ s.frames, f.localGet name = none) →
      get_var s name = .error ("undeclared variable " ++ name)) := by
  refine ⟨fun n s loc => rfl, fun n s loc => rfl, fun n s loc => rfl, ?_, ?_⟩
  · intro n s name loc h1 h2 h3
    simp only [evalExpr, evalCore]
  · intro s name h
    exact lookup_chain_all_miss s name h s.frames.length s.env

/-- C6 witness: a state binding the name `true` in its globals frame still
evaluates the identifier `true` to a fresh boolean value, bypassing the
binding. -/
theorem claim_C6_witness :
    evalExpr 1 ⟨[⟨[("true", .StrVal "shadowed")], none⟩], [], 0, []⟩ (.identifier "true" loc0) =
      some (⟨[⟨[("true", .StrVal "shadowed")], none⟩], [.bool true], 0, []⟩, .ok (.BoolVal 0)) :=
  claim_C6_reserved_identifiers.1 0 ⟨[⟨[("true", .StrVal "shadowed")], none⟩], [], 0, []⟩ loc0

/-- Helper for C8: a failing prefix determines the whole run — the suffix
after the first error is never executed. -/
theorem interpret_go_append_error (n : Nat) :
    ∀ xs s res ys s1 e, interpret_go n s res xs = some (s1, .error e) →
      interpret_go n s res (xs ++ ys) = some (s1, .error e) := by
  intro xs
  induction xs with
  | nil =>
    intro s res ys s1 e h
    simp only [interpret_go, Option.some.injEq, Prod.mk.injEq] at h
    exact absurd h.2 (by simp)
  | cons x xs ih =>
    intro s res ys s1 e h
    simp only [List.cons_append, interpret_go] at h ⊢
    cases hx : evalStmt n s x with
    | none => rw [hx] at h; exact Option.noConfusion h
    | some p =>
      obtain ⟨s2, r⟩ := p
      cases r with
      | error e2 => rw [hx] at h; exact h
      | ok r2 => rw [hx] at h; exact ih s2 r2 ys s1 e h

/-- Helper for C8: appending one more successful statement makes its value
the run's terminal value. -/
theorem interpret_go_append_last (n : Nat) :
    ∀ xs s res st s1 v s2 r, interpret_go n s res xs = some (s1, .ok v) →
      evalStmt n s1 st = some (s2, .ok r) →
      interpret_go n s res (xs ++ [st]) = some (s2, .ok r) := by
  intro xs
  induction xs with
  | nil =>
    intro s res st s1 v s2 r h1 h2
    simp only [interpret_go, Option.some.injEq, Prod.mk.injEq, Except.ok.injEq] at h1
    obtain ⟨rfl, rfl⟩ := h1
    simp [interpret_go, h2]
  | cons x xs ih =>
    intro s res st s1 v s2 r h1 h2
    simp only [List.cons_append, interpret_go] at h1 ⊢
    cases hx : evalStmt n s x with
    | none => rw [hx] at h1; exact Option.noConfusion h1
    | some p =>
      obtain ⟨s3, r3⟩ := p
      cases r3 with
      | error e3 => rw [hx] at h1; simp at h1
      | ok r3 => rw [hx] at h1; exact ih s3 r3 st s1 v s2 r h1 h2

/-- C8: `interpret` runs the statement sequence in order; the empty
sequence yields the sentinel Null; when a prefix succeeds and one more
statement succeeds, the run's result is that final statement's value; and
when a prefix fails, the whole run returns that first error unchanged and
executes nothing after it. -/
theorem claim_C8_interpret_results :
    (∀ n s, interpret n s [] = some (s, .ok RtVal.Null)) ∧
    (∀ n s xs st s1 v s2 r, interpret n s xs = some (s1, .ok v) →
      evalStmt n s1 st = some (s2, .ok r) →
      interpret n s (xs ++ [st]) = some (s2, .ok r)) ∧
    (∀ n s xs ys s1 e, interpret n s xs = some (s1, .error e) →
      interpret n s (xs ++ ys) = some (s1, .error e)) := by
  refine ⟨fun n s => rfl, ?_, ?_⟩
  · intro n s xs st s1 v s2 r h1 h2
    exact interpret_go_append_last n xs s .Null st s1 v s2 r h1 h2
  · intro n s xs ys s1 e h
    exact interpret_go_append_error n xs s .Null ys s1 e h

/-- C8 witness: after the unresolved-name failure of `zzz`, the following
statement is never executed and the error is returned unchanged. -/
theorem claim_C8_witness :
    interpret 5 initState
        ([.expr (.identifier "zzz" loc0) loc0] ++ [.expr (.intLiteral 1 loc0) loc0]) =
      some (initState, .error ⟨.GetVarEnv "undeclared variable zzz", some loc0⟩) :=
  claim_C8_interpret_results.2.2 5 initState [.expr (.identifier "zzz" loc0) loc0]
    [.expr (.intLiteral 1 loc0) loc0] initState
    ⟨.GetVarEnv "undeclared variable zzz", some loc0⟩ rfl

/-- C9: when the right-hand side of an assignment evaluates successfully
and the target name is bound somewhere along the frame chain, the
assignment mutates that binding but `visit_assign_expr` returns the
sentinel Null, not the assigned value.  Concretely, `var a = 1  a = 2`
ends with Null as the run's terminal value while the follow-up read in
`var a = 1  a = 2  a` sees the assigned `2`. -/
theorem claim_C9_assignment_yields_null :
    (∀ n s name rhs loc s1 v s2, evalExpr n s rhs = some (s1, .ok v) →
      assign s1 name v = .ok s2 →
      evalExpr (n+1) s (.assign name rhs loc) = some (s2, .ok .Null)) ∧
    resultVal (interpret 30 initState progAssignLast) = some .Null ∧
    resultInt (interpret 30 initState progAssignRead) = some 2 := by
  refine ⟨?_, rfl, rfl⟩
  intro n s name rhs loc s1 v s2 h ha
  simp only [evalExpr] at h ⊢
  simp only [evalCore]
  rw [h]
  simp only [resBind]
  rw [ha]

/-- C9 witness: assigning `2` to the bound name `a` succeeds and the
assignment expression's own value is Null. -/
theorem claim_C9_witness :
    evalExpr 2 ⟨[⟨[("a", RtVal.Null)], none⟩], [], 0, []⟩
        (.assign "a" (.intLiteral 2 loc0) loc0) =
      some (⟨[⟨[("a", RtVal.IntVal 0)], none⟩], [.int 2], 0, []⟩, .ok .Null) :=
  claim_C9_assignment_yields_null.1 1 ⟨[⟨[("a", RtVal.Null)], none⟩], [], 0, []⟩ "a"
    (.intLiteral 2 loc0) loc0 ⟨[⟨[("a", RtVal.Null)], none⟩], [.int 2], 0, []⟩
    (.IntVal 0) ⟨[⟨[("a", RtVal.IntVal 0)], none⟩], [.int 2], 0, []⟩ rfl rfl

/-- C10: a unary expression that passes the operand-kind pre-check calls
`negate` for its in-place effect on the operand's shared cell and returns
the very same value object (same cell address), not a fresh copy; the
frame heap is untouched, so any environment binding aliasing that cell
observes the negation: reading the cell afterwards yields the negated
payload. -/
theorem claim_C10_negate_in_place :
    (∀ n s r loc s1 a b, evalExpr n s r = some (s1, .ok (.BoolVal a)) →
      readBool s1 a = some b →
      evalExpr (n+1) s (.unary "!" r loc) =
        some (updateCell s1 a (.bool (!b)), .ok (.BoolVal a))) ∧
    (∀ n s r loc s1 a i, evalExpr n s r = some (s1, .ok (.IntVal a)) →
      readInt s1 a = some i →
      evalExpr (n+1) s (.unary "-" r loc) =
        some (updateCell s1 a (.int (-i)), .ok (.IntVal a))) ∧
    (∀ s a c, (updateCell s a c).frames = s.frames) ∧
    (∀ s a q, a < s.cells.length →
      readBool (updateCell s a (.bool q)) a = some q) := by
  refine ⟨?_, ?_, fun s a c => rfl, ?_⟩
  · intro n s r loc s1 a b h hb
    simp only [evalExpr] at h ⊢
    simp only [evalCore]
    rw [h]
    simp only [resBind]
    simp [negate, hb]
  · intro n s r loc s1 a i h hi
    simp only [evalExpr] at h ⊢
    simp only [evalCore]
    rw [h]
    simp only [resBind]
    simp [negate, hi]
  · intro s a q hlt
    simp [readBool, updateCell, List.getElem?_set, hlt]

/-- C10 witness: negating the fresh boolean produced by the identifier
`true` flips its cell in place and returns the same cell address. -/
theorem claim_C10_witness :
    evalExpr 2 initState (.unary "!" (.identifier "true" loc0) loc0) =
      some (updateCell (allocBool initState true).1 0 (.bool false), .ok (.BoolVal 0)) :=
  claim_C10_negate_in_place.1 1 initState (.identifier "true" loc0) loc0
    (allocBool initState true).1 0 true rfl rfl

theorem retIffNoLoc_none : retIffNoLoc none := by
  intro s e h
  exact Option.noConfusion h

theorem retIffNoLoc_ok (s : InterpState) (v : RtVal) : retIffNoLoc (some (s, .ok v)) := by
  intro s' e h
  simp at h

theorem retIffNoLoc_genuine (s : InterpState) (k : InterpErr) (l : Loc)
    (hk : ∀ v, k ≠ InterpErr.Return v) : retIffNoLoc (some (s, .error ⟨k, some l⟩)) := by
  intro s' e h
  simp only [Option.some.injEq, Prod.mk.injEq, Except.error.injEq] at h
  obtain ⟨-, rfl⟩ := h
  constructor
  · rintro ⟨v, hv⟩
    exact absurd hv (hk v)
  · intro hl
    exact Option.noConfusion hl

theorem retIffNoLoc_return (s : InterpState) (v : RtVal) :
    retIffNoLoc (some (s, .error ⟨.Return v, none⟩)) := by
  intro s' e h
  simp only [Option.some.injEq, Prod.mk.injEq, Except.error.injEq] at h
  obtain ⟨-, rfl⟩ := h
  exact ⟨fun _ => rfl, fun _ => ⟨v, rfl⟩⟩

theorem retIffNoLoc_resBind (r : Option (InterpState × InterpRes))
    (f : InterpState → RtVal → Option (InterpState × InterpRes))
    (hr : retIffNoLoc r) (hf : ∀ s v, retIffNoLoc (f s v)) :
    retIffNoLoc (resBind r f) := by
  intro s e h
  cases r with
  | none => exact Option.noConfusion h
  | some p =>
    obtain ⟨s1, res⟩ := p
    cases res with
    | error e1 =>
      simp only [resBind, Option.some.injEq, Prod.mk.injEq, Except.error.injEq] at h
      obtain ⟨rfl, rfl⟩ := h
      exact hr _ _ rfl
    | ok v => exact hf s1 v s e h

/-- Helper for C7: every error any evaluation request can produce obeys
the location discipline — it is the `Return` signal precisely when it
carries no location.  Every genuine construction site passes
`Some(loc)`, `visit_return_stmt` passes `None`, propagation preserves the
errors, and the call boundary consumes `Return` before re-wrapping. -/
theorem evalCore_retIffNoLoc : ∀ n s req, retIffNoLoc (evalCore n s req) := by
  intro n
  induction n with
  | zero => intro s req; exact retIffNoLoc_none
  | succ n ih =>
    intro s req
    cases req with
    | execBlock fr stmts =>
      simp only [evalCore]
      split
      · exact retIffNoLoc_none
      · rename_i s2 res heq
        intro s' e h
        simp only [Option.some.injEq, Prod.mk.injEq] at h
        obtain ⟨-, rfl⟩ := h
        exact (ih _ _) _ _ heq
    | callFn params body closure args =>
      simp only [evalCore]
      split
      · exact retIffNoLoc_none
      · exact retIffNoLoc_ok _ _
      · rename_i s1 er heq
        split
        · exact retIffNoLoc_ok _ _
        · intro s' e h
          simp only [Option.some.injEq, Prod.mk.injEq, Except.error.injEq] at h
          obtain ⟨-, rfl⟩ := h
          exact (ih _ _) _ _ heq
    | expr e =>
      cases e <;>
        · simp only [evalCore]
          repeat' first
            | exact retIffNoLoc_none
            | exact retIffNoLoc_ok _ _
            | exact retIffNoLoc_return _ _
            | exact retIffNoLoc_genuine _ _ _ (fun v h => InterpErr.noConfusion h)
            | exact ih _ _
            | (apply retIffNoLoc_resBind _ _ (ih _ _); intro s' v')
            | split
    | stmt st =>
      cases st <;>
        · simp only [evalCore]
          repeat' first
            | exact retIffNoLoc_none
            | exact retIffNoLoc_ok _ _
            | exact retIffNoLoc_return _ _
            | exact retIffNoLoc_genuine _ _ _ (fun v h => InterpErr.noConfusion h)
            | exact ih _ _
            | (apply retIffNoLoc_resBind _ _ (ih _ _); intro s' v')
            | split
    | _ =>
      simp only [evalCore]
      repeat' first
        | exact retIffNoLoc_none
        | exact retIffNoLoc_ok _ _
        | exact retIffNoLoc_return _ _
        | exact retIffNoLoc_genuine _ _ _ (fun v h => InterpErr.noConfusion h)
        | exact ih _ _
        | (apply retIffNoLoc_resBind _ _ (ih _ _); intro s' v')
        | split

/-- C7: `visit_return_stmt` evaluates the optional value expression — the
sentinel Null standing in when it is absent — and yields the `Err` outcome
carrying the `Return` control-transfer signal with that value and no
source location; and across the whole engine an error is the `Return`
signal exactly when it carries no location, so every genuine error kind
carries one while the `Return` signal never does. -/
theorem claim_C7_return_signal :
    (∀ n s loc, evalStmt (n+1) s (.returnStmt none loc) =
      some (s, .error ⟨.Return .Null, none⟩)) ∧
    (∀ n s vexpr loc s1 rv, evalExpr n s vexpr = some (s1, .ok rv) →
      evalStmt (n+1) s (.returnStmt (some vexpr) loc) =
        some (s1, .error ⟨.Return rv, none⟩)) ∧
    (∀ n s req s1 e, evalCore n s req = some (s1, .error e) →
      ((∃ v, e.err = InterpErr.Return v) ↔ e.loc = none)) := by
  refine ⟨fun n s loc => rfl, ?_, ?_⟩
  · intro n s vexpr loc s1 rv h
    simp only [evalExpr, evalStmt] at h ⊢
    simp only [evalCore]
    rw [h]; rfl
  · intro n s req s1 e h
    exact evalCore_retIffNoLoc n s req s1 e h

/-- C7 witness: `return 1` evaluates the value and raises the Return
signal carrying it, with no source location attached. -/
theorem claim_C7_witness :
    evalStmt 2 initState (.returnStmt (some (.intLiteral 1 loc0)) loc0) =
      some ((mkInt initState 1).1, .error ⟨.Return (.IntVal 0), none⟩) :=
  claim_C7_return_signal.2.1 1 initState (.intLiteral 1 loc0) loc0
    (mkInt initState 1).1 (.IntVal 0) rfl
